import Mathlib

/-!
Formalisation of the scheduled capacity controller in
`src/infra/lambda/scale_nodegroup/handler.py`.

The handler has two pieces of logic:

* `_coerce_capacity(value, default)` — coerces one loosely-typed payload
  field to an integer, raising `ValueError` on unparsable shapes;
* `on_event(event, _context)` — coerces the three capacity fields,
  computes `max_capacity = max(desired_capacity, requested_max)`, issues a
  single `update_nodegroup_config` call against the EKS API and returns a
  result echoing the applied envelope.

The embedding models Python values with an inductive type `PyVal`,
Python's `int(str)` parsing and `int(float)` truncation explicitly, and
the handler as a function into `Except`, pairing the external update call
with the returned result so that sequencing claims (no call on error, one
call per invocation) can be stated.
-/

/-- A Python/JSON value as it can appear in a handler payload field.
`none` stands for both an absent key and an explicit `null`, exactly as
`event.get(k)` conflates them.  `float` carries the exact rational value
of a finite floating-point number (every finite float is a rational, and
`int(float)` truncates that rational toward zero). -/
inductive PyVal where
  | none
  | bool (b : Bool)
  | int (n : ℤ)
  | float (q : ℚ)
  | str (s : String)
  | list (xs : List PyVal)
  | dict (entries : List (String × PyVal))

/-- Characters stripped by Python's `str.strip()` (the ASCII whitespace
set that can occur in these payloads). -/
def pyWs (c : Char) : Bool :=
  c = ' ' || c = '\t' || c = '\n' || c = '\r' || c = '\x0b' || c = '\x0c'

/-- Model of `str.strip()` on a character list: drop whitespace from both ends. -/
def pyStrip (cs : List Char) : List Char :=
  ((cs.dropWhile pyWs).reverse.dropWhile pyWs).reverse

/-- Numeric value of a decimal digit character. -/
def digitVal (c : Char) : ℕ := c.toNat - 48

/-- Digit run accepted by Python's `int()` after the first digit: decimal
digits, with single underscores allowed strictly between digits.
Accumulates the value left to right. -/
def parseDigitsAux : List Char → ℕ → Option ℕ
  | [], acc => some acc
  | c :: rest, acc =>
    if c.isDigit then parseDigitsAux rest (acc * 10 + digitVal c)
    else if c = '_' then
      match rest with
      | c2 :: _ => if c2.isDigit then parseDigitsAux rest acc else Option.none
      | [] => Option.none
    else Option.none

/-- A nonempty digit run: the first character must be a digit. -/
def parseDigits : List Char → Option ℕ
  | [] => Option.none
  | c :: rest => if c.isDigit then parseDigitsAux rest (digitVal c) else Option.none

/-- After stripping: an optional sign followed by a nonempty digit run. -/
def pySignedDigits : List Char → Option ℤ
  | [] => Option.none
  | c :: rest =>
    if c = '-' then (parseDigits rest).map (fun m => -(m : ℤ))
    else if c = '+' then (parseDigits rest).map (fun m => (m : ℤ))
    else (parseDigits (c :: rest)).map (fun m => (m : ℤ))

/-- Python's `int(s)` on a string: strip whitespace, then an optional
sign followed by a nonempty digit run; `Option.none` models the
`ValueError` raised on anything else. -/
def pyIntOfString (s : String) : Option ℤ :=
  pySignedDigits (pyStrip s.data)

/-- Python's `int(x)` on a (finite) float value: truncation toward zero. -/
def pyTrunc (q : ℚ) : ℤ := if 0 ≤ q then ⌊q⌋ else ⌈q⌉

/-- The normalization failure: the handler raises `ValueError` carrying
the offending raw value in its message (`Unable to coerce capacity
value: {value!r}`, or the message of `int()` itself, which also shows
only the value).  Neither message mentions the field name. -/
inductive CoerceError where
  | invalidCapacityValue (value : PyVal)

/-- Embedding of `_coerce_capacity(value, *, default)` from the handler:

```python
if value is None: return default
if isinstance(value, (int, float)): return int(value)
if isinstance(value, str) and value.strip(): return int(value)
raise ValueError(f"Unable to coerce capacity value: {value!r}")
```

Python's `bool` is a subclass of `int`, so `isinstance(True, (int, float))`
holds and booleans take the numeric branch with `int(True) = 1`,
`int(False) = 0`.  A string whose `strip()` is empty, and a non-empty
string that `int()` cannot parse, both raise `ValueError`. -/
def coerce_capacity (value : PyVal) (default : ℤ) : Except CoerceError ℤ :=
  match value with
  | .none => .ok default
  | .bool b => .ok (if b then 1 else 0)
  | .int n => .ok n
  | .float q => .ok (pyTrunc q)
  | .str s =>
    if pyStrip s.data ≠ [] then
      match pyIntOfString s with
      | some n => .ok n
      | Option.none => .error (.invalidCapacityValue (.str s))
    else .error (.invalidCapacityValue (.str s))
  | .list xs => .error (.invalidCapacityValue (.list xs))
  | .dict entries => .error (.invalidCapacityValue (.dict entries))

/-- The handler's deploy-time configuration: `CLUSTER_NAME`,
`NODEGROUP_NAME` and `MAX_CAPACITY` (the capacity ceiling, default 4). -/
structure Config where
  clusterName : String
  nodegroupName : String
  maxCapacity : ℤ

/-- The raw event payload, reduced to the three fields the handler reads
via `event.get`; an absent field is `PyVal.none`. -/
structure Event where
  desiredCapacity : PyVal
  minCapacity : PyVal
  maxCapacity : PyVal

/-- The `scalingConfig` argument of `update_nodegroup_config`. -/
structure ScalingConfig where
  minSize : ℤ
  maxSize : ℤ
  desiredSize : ℤ

/-- One `eks.update_nodegroup_config` call as issued by the handler. -/
structure UpdateCall where
  clusterName : String
  nodegroupName : String
  scalingConfig : ScalingConfig

/-- The dictionary returned by `on_event` on success. -/
structure EventResult where
  cluster : String
  nodegroup : String
  desired : ℤ
  min : ℤ
  max : ℤ

/-- Embedding of `on_event(event, _context)` from the handler:

```python
desired_capacity = _coerce_capacity(event.get("desiredCapacity"), default=0)
min_capacity = _coerce_capacity(event.get("minCapacity"), default=desired_capacity)
requested_max = _coerce_capacity(event.get("maxCapacity"), default=_MAX_CAPACITY)
max_capacity = max(desired_capacity, requested_max)
_EKS.update_nodegroup_config(..., scalingConfig={...})
return {"cluster": ..., "nodegroup": ..., "desired": ..., "min": ..., "max": ...}
```

A raised `ValueError` aborts the invocation before the update call, so
the embedding returns `Except`: on success it pairs the single external
call issued with the returned result; on error no call is made. -/
def on_event (cfg : Config) (event : Event) : Except CoerceError (UpdateCall × EventResult) :=
  match coerce_capacity event.desiredCapacity 0 with
  | .error e => .error e
  | .ok desired_capacity =>
    match coerce_capacity event.minCapacity desired_capacity with
    | .error e => .error e
    | .ok min_capacity =>
      match coerce_capacity event.maxCapacity cfg.maxCapacity with
      | .error e => .error e
      | .ok requested_max =>
        let max_capacity := max desired_capacity requested_max
        let call : UpdateCall :=
          { clusterName := cfg.clusterName
            nodegroupName := cfg.nodegroupName
            scalingConfig :=
              { minSize := min_capacity
                maxSize := max_capacity
                desiredSize := desired_capacity } }
        .ok (call,
          { cluster := cfg.clusterName
            nodegroup := cfg.nodegroupName
            desired := desired_capacity
            min := min_capacity
            max := max_capacity })

/-- The sequence of external update calls an invocation issues: the body
of `on_event` reaches `update_nodegroup_config` exactly once, and only
after all three coercions have succeeded; an earlier `ValueError` means
no call at all. -/
def on_event_calls (cfg : Config) (event : Event) : List UpdateCall :=
  match on_event cfg event with
  | .ok (call, _) => [call]
  | .error _ => []

/-! ### Decimal strings and parsing lemmas

`decimalString n` is the canonical decimal rendering of an integer, used
to state that a field supplied as the decimal string of `n` normalizes
exactly like the field supplied as the integer `n`. -/

/-- The decimal digit character for `d < 10`. -/
def decDigit : ℕ → Char
  | 0 => '0' | 1 => '1' | 2 => '2' | 3 => '3' | 4 => '4'
  | 5 => '5' | 6 => '6' | 7 => '7' | 8 => '8' | 9 => '9'
  | _ => '*'

/-- Decimal digit list of a natural number, most significant first. -/
def natDigits (n : ℕ) : List Char :=
  if n < 10 then [decDigit n]
  else natDigits (n / 10) ++ [decDigit (n % 10)]
termination_by n
decreasing_by exact Nat.div_lt_self (by omega) (by omega)

/-- Canonical decimal string of an integer (with a leading `-` when
negative). -/
def decimalString (n : ℤ) : String :=
  if n < 0 then ⟨'-' :: natDigits (-n).toNat⟩ else ⟨natDigits n.toNat⟩

theorem decDigit_isDigit (d : ℕ) (h : d < 10) : (decDigit d).isDigit = true := by
  interval_cases d <;> decide

theorem digitVal_decDigit (d : ℕ) (h : d < 10) : digitVal (decDigit d) = d := by
  interval_cases d <;> decide

theorem natDigits_ne_nil (n : ℕ) : natDigits n ≠ [] := by
  rw [natDigits]
  split <;> simp

theorem natDigits_digits (n : ℕ) : ∀ c ∈ natDigits n, c.isDigit = true := by
  induction n using Nat.strong_induction_on with
  | _ n ih =>
    rw [natDigits]
    split
    · next h =>
      intro c hc
      rw [List.mem_singleton] at hc
      subst hc
      exact decDigit_isDigit n h
    · next h =>
      intro c hc
      rcases List.mem_append.mp hc with h1 | h1
      · exact ih (n / 10) (Nat.div_lt_self (by omega) (by omega)) c h1
      · rw [List.mem_singleton] at h1
        subst h1
        exact decDigit_isDigit _ (Nat.mod_lt _ (by omega))

theorem parseDigitsAux_all_digits (cs : List Char) (h : ∀ c ∈ cs, c.isDigit = true)
    (acc : ℕ) :
    parseDigitsAux cs acc = some (cs.foldl (fun a c => a * 10 + digitVal c) acc) := by
  induction cs generalizing acc with
  | nil => rfl
  | cons c rest ih =>
    have hc : c.isDigit = true := h c (List.mem_cons_self c rest)
    rw [parseDigitsAux.eq_def]
    simp only [hc, if_true, List.foldl_cons]
    exact ih (fun x hx => h x (List.mem_cons_of_mem _ hx)) _

theorem foldl_natDigits (n : ℕ) : ∀ acc : ℕ,
    (natDigits n).foldl (fun a c => a * 10 + digitVal c) acc
      = acc * 10 ^ (natDigits n).length + n := by
  induction n using Nat.strong_induction_on with
  | _ n ih =>
    intro acc
    rw [natDigits]
    split
    · next h =>
      simp [digitVal_decDigit n h]
    · next h =>
      rw [List.foldl_append, ih (n / 10) (Nat.div_lt_self (by omega) (by omega)) acc]
      simp only [List.foldl_cons, List.foldl_nil, List.length_append,
        List.length_singleton, digitVal_decDigit _ (Nat.mod_lt n (by omega))]
      calc (acc * 10 ^ (natDigits (n / 10)).length + n / 10) * 10 + n % 10
          = acc * (10 ^ (natDigits (n / 10)).length * 10) + (10 * (n / 10) + n % 10) := by
            ring
        _ = acc * 10 ^ ((natDigits (n / 10)).length + 1) + n := by
            rw [pow_succ, Nat.div_add_mod]

theorem parseDigits_natDigits (n : ℕ) : parseDigits (natDigits n) = some n := by
  obtain ⟨c, rest, h⟩ : ∃ c rest, natDigits n = c :: rest := by
    cases hd : natDigits n with
    | nil => exact absurd hd (natDigits_ne_nil n)
    | cons c rest => exact ⟨c, rest, rfl⟩
  have hall := natDigits_digits n
  rw [h] at hall
  rw [h, parseDigits, if_pos (hall c (List.mem_cons_self c rest)),
    parseDigitsAux_all_digits rest (fun x hx => hall x (List.mem_cons_of_mem _ hx))]
  have hfold := foldl_natDigits n 0
  rw [h] at hfold
  simp only [List.foldl_cons, Nat.zero_mul, Nat.zero_add] at hfold
  rw [hfold]

theorem not_ws_of_isDigit (c : Char) (h : c.isDigit = true) : pyWs c = false := by
  by_contra hws
  rw [Bool.not_eq_false] at hws
  simp only [pyWs, Bool.or_eq_true, decide_eq_true_eq] at hws
  rcases hws with ((((h1 | h1) | h1) | h1) | h1) | h1 <;> subst h1 <;> simp at h

theorem dropWhile_pyWs_eq_self (cs : List Char) (h : ∀ c ∈ cs, pyWs c = false) :
    cs.dropWhile pyWs = cs := by
  cases cs with
  | nil => rfl
  | cons c rest =>
    rw [List.dropWhile_cons, h c (List.mem_cons_self c rest)]
    simp

theorem pyStrip_eq_self (cs : List Char) (h : ∀ c ∈ cs, pyWs c = false) :
    pyStrip cs = cs := by
  unfold pyStrip
  rw [dropWhile_pyWs_eq_self cs h,
    dropWhile_pyWs_eq_self cs.reverse (fun c hc => h c (List.mem_reverse.mp hc)),
    List.reverse_reverse]

theorem ne_sign_of_isDigit (c : Char) (h : c.isDigit = true) : c ≠ '-' ∧ c ≠ '+' := by
  constructor <;> intro he <;> subst he <;> simp at h

/-- A nonempty all-digit string parses to its digit-run value, and the
same string with a leading minus parses to the negation. -/
theorem pyIntOfString_digits (ds : List Char) (hne : ds ≠ [])
    (hall : ∀ c ∈ ds, c.isDigit = true) (m : ℕ) (hparse : parseDigits ds = some m) :
    pyIntOfString ⟨ds⟩ = some (m : ℤ) ∧ pyIntOfString ⟨'-' :: ds⟩ = some (-(m : ℤ)) := by
  obtain ⟨c, rest, hds⟩ : ∃ c rest, ds = c :: rest := by
    cases ds with
    | nil => exact absurd rfl hne
    | cons c rest => exact ⟨c, rest, rfl⟩
  subst hds
  have hnws : ∀ x ∈ c :: rest, pyWs x = false := fun x hx => not_ws_of_isDigit x (hall x hx)
  have hc := hall c (List.mem_cons_self c rest)
  obtain ⟨hcm, hcp⟩ := ne_sign_of_isDigit c hc
  constructor
  · rw [pyIntOfString]
    simp only [String.data]
    rw [pyStrip_eq_self _ hnws, pySignedDigits, if_neg hcm, if_neg hcp, hparse]
    rfl
  · rw [pyIntOfString]
    simp only [String.data]
    have hnws2 : ∀ x ∈ '-' :: c :: rest, pyWs x = false := by
      intro x hx
      rcases List.mem_cons.mp hx with h1 | h1
      · subst h1; decide
      · exact hnws x h1
    rw [pyStrip_eq_self _ hnws2, pySignedDigits, if_pos rfl, hparse]
    rfl

theorem pyIntOfString_decimalString (n : ℤ) :
    pyIntOfString (decimalString n) = some n := by
  rw [decimalString]
  split
  · next hneg =>
    rw [(pyIntOfString_digits (natDigits (-n).toNat) (natDigits_ne_nil _)
      (natDigits_digits _) (-n).toNat (parseDigits_natDigits _)).2]
    have : (((-n).toNat : ℕ) : ℤ) = -n := Int.toNat_of_nonneg (by omega)
    rw [this, neg_neg]
  · next hpos =>
    rw [(pyIntOfString_digits (natDigits n.toNat) (natDigits_ne_nil _)
      (natDigits_digits _) n.toNat (parseDigits_natDigits _)).1]
    rw [Int.toNat_of_nonneg (by omega)]

theorem pyStrip_ne_nil_of_parse (s : String) (n : ℤ) (h : pyIntOfString s = some n) :
    pyStrip s.data ≠ [] := by
  intro hnil
  rw [pyIntOfString, hnil] at h
  simp [pySignedDigits] at h

/-- When `int()` succeeds on a string, `_coerce_capacity` returns that
integer regardless of the default. -/
theorem coerce_capacity_of_parse (s : String) (n d : ℤ) (h : pyIntOfString s = some n) :
    coerce_capacity (.str s) d = .ok n := by
  rw [coerce_capacity, if_pos (pyStrip_ne_nil_of_parse s n h), h]

theorem coerce_capacity_decimalString (n d : ℤ) :
    coerce_capacity (.str (decimalString n)) d = .ok n :=
  coerce_capacity_of_parse _ n d (pyIntOfString_decimalString n)

/-! ### Failure of `int()` on strings containing a non-numeric character -/

theorem parseDigitsAux_none_of_bad (cs : List Char) (c : Char)
    (hd : c.isDigit = false) (hu : c ≠ '_') :
    ∀ acc : ℕ, c ∈ cs → parseDigitsAux cs acc = Option.none := by
  induction cs with
  | nil => intro acc hmem; cases hmem
  | cons a rest ih =>
    intro acc hmem
    by_cases ha : a.isDigit = true
    · have hc : c ∈ rest := by
        rcases List.mem_cons.mp hmem with h1 | h1
        · subst h1; rw [hd] at ha; cases ha
        · exact h1
      rw [parseDigitsAux.eq_def]
      simp only [ha, if_true]
      exact ih _ hc
    · by_cases hau : a = '_'
      · subst hau
        have hc : c ∈ rest := by
          rcases List.mem_cons.mp hmem with h1 | h1
          · exact absurd h1 hu
          · exact h1
        cases rest with
        | nil => cases hc
        | cons c2 r2 =>
          have hstep : parseDigitsAux ('_' :: c2 :: r2) acc =
              if c2.isDigit then parseDigitsAux (c2 :: r2) acc else Option.none := rfl
          rw [hstep]
          by_cases h2 : c2.isDigit = true
          · rw [if_pos h2]
            exact ih _ hc
          · rw [if_neg h2]
      · rw [parseDigitsAux.eq_def]
        simp [ha, hau]

theorem parseDigits_none_of_bad (cs : List Char) (c : Char)
    (hmem : c ∈ cs) (hd : c.isDigit = false) (hu : c ≠ '_') :
    parseDigits cs = Option.none := by
  cases cs with
  | nil => rfl
  | cons a rest =>
    by_cases ha : a.isDigit = true
    · have hc : c ∈ rest := by
        rcases List.mem_cons.mp hmem with h1 | h1
        · subst h1; rw [hd] at ha; cases ha
        · exact h1
      rw [parseDigits, if_pos ha]
      exact parseDigitsAux_none_of_bad rest c hd hu _ hc
    · rw [parseDigits, if_neg ha]

theorem mem_dropWhile_of_not (p : Char → Bool) (cs : List Char) (c : Char)
    (hmem : c ∈ cs) (hp : p c = false) : c ∈ cs.dropWhile p := by
  induction cs with
  | nil => cases hmem
  | cons a rest ih =>
    rw [List.dropWhile_cons]
    by_cases ha : p a = true
    · rw [ha, if_pos rfl]
      have hc : c ∈ rest := by
        rcases List.mem_cons.mp hmem with h1 | h1
        · subst h1; rw [hp] at ha; cases ha
        · exact h1
      exact ih hc
    · rw [Bool.not_eq_true] at ha
      rw [ha]
      simpa using hmem

theorem mem_pyStrip (cs : List Char) (c : Char) (hmem : c ∈ cs) (hws : pyWs c = false) :
    c ∈ pyStrip cs := by
  unfold pyStrip
  rw [List.mem_reverse]
  exact mem_dropWhile_of_not pyWs _ c
    (List.mem_reverse.mpr (mem_dropWhile_of_not pyWs cs c hmem hws)) hws

/-- A string containing any character that is not whitespace, not a
digit, not an underscore and not a sign cannot be parsed by `int()`. -/
theorem pyIntOfString_none_of_bad (s : String) (c : Char)
    (hmem : c ∈ s.data) (hws : pyWs c = false) (hd : c.isDigit = false)
    (hu : c ≠ '_') (hminus : c ≠ '-') (hplus : c ≠ '+') :
    pyIntOfString s = Option.none := by
  have hc : c ∈ pyStrip s.data := mem_pyStrip _ _ hmem hws
  rw [pyIntOfString]
  cases hsplit : pyStrip s.data with
  | nil => rfl
  | cons a rest =>
    rw [hsplit] at hc
    rw [pySignedDigits]
    by_cases ha : a = '-'
    · subst ha
      have h1 : c ∈ rest := by
        rcases List.mem_cons.mp hc with h2 | h2
        · exact absurd h2 hminus
        · exact h2
      rw [if_pos rfl, parseDigits_none_of_bad rest c h1 hd hu]
      rfl
    · by_cases hb : a = '+'
      · subst hb
        have h1 : c ∈ rest := by
          rcases List.mem_cons.mp hc with h2 | h2
          · exact absurd h2 hplus
          · exact h2
        rw [if_neg ha, if_pos rfl, parseDigits_none_of_bad rest c h1 hd hu]
        rfl
      · rw [if_neg ha, if_neg hb, parseDigits_none_of_bad (a :: rest) c hc hd hu]
        rfl

/-- Coercion (`_coerce_capacity`) raises on a string containing a character outside
the grammar accepted by `int()`. -/
theorem coerce_capacity_str_error_of_bad (s : String) (d : ℤ) (c : Char)
    (hmem : c ∈ s.data) (hws : pyWs c = false) (hd : c.isDigit = false)
    (hu : c ≠ '_') (hminus : c ≠ '-') (hplus : c ≠ '+') :
    coerce_capacity (.str s) d = .error (.invalidCapacityValue (.str s)) := by
  have hne : pyStrip s.data ≠ [] := by
    intro hnil
    have := mem_pyStrip s.data c hmem hws
    rw [hnil] at this
    cases this
  rw [coerce_capacity, if_pos hne,
    pyIntOfString_none_of_bad s c hmem hws hd hu hminus hplus]

/-! ### Unfolding lemma for `on_event` and concrete fixtures -/

/-- Unfolding: `on_event` succeeds exactly when the three coercions succeed in
order (the default of `minCapacity` being the resolved desired value),
and then the call and the result are built from the resolved values with
`maximum = max desired requested_max`. -/
theorem on_event_ok_iff (cfg : Config) (ev : Event) (call : UpdateCall) (r : EventResult) :
    on_event cfg ev = .ok (call, r) ↔
      ∃ d m mx, coerce_capacity ev.desiredCapacity 0 = .ok d ∧
        coerce_capacity ev.minCapacity d = .ok m ∧
        coerce_capacity ev.maxCapacity cfg.maxCapacity = .ok mx ∧
        call = { clusterName := cfg.clusterName, nodegroupName := cfg.nodegroupName,
                 scalingConfig := { minSize := m, maxSize := max d mx, desiredSize := d } } ∧
        r = { cluster := cfg.clusterName, nodegroup := cfg.nodegroupName,
              desired := d, min := m, max := max d mx } := by
  rw [on_event]
  cases h1 : coerce_capacity ev.desiredCapacity 0 with
  | error e => simp [h1]
  | ok d =>
    cases h2 : coerce_capacity ev.minCapacity d with
    | error e => simp [h1, h2]
    | ok m =>
      cases h3 : coerce_capacity ev.maxCapacity cfg.maxCapacity with
      | error e => simp [h1, h2, h3]
      | ok mx => simp [h1, h2, h3, eq_comm]

/-- A sample configuration: the ceiling is the deploy default `4`. -/
def cfg0 : Config :=
  { clusterName := "demo-cluster", nodegroupName := "demo-ng", maxCapacity := 4 }

/-- Payload `{"desiredCapacity": 1, "minCapacity": 5}`: accepted, but the
explicit floor sits above the target. -/
def evMinAboveDesired : Event :=
  { desiredCapacity := .int 1, minCapacity := .int 5, maxCapacity := .none }

/-- Payload `{"desiredCapacity": 3}`. -/
def evDesiredOnly : Event :=
  { desiredCapacity := .int 3, minCapacity := .none, maxCapacity := .none }

/-- Payload `{"desiredCapacity": 6}` against ceiling `4`. -/
def evBigDesired : Event :=
  { desiredCapacity := .int 6, minCapacity := .none, maxCapacity := .none }

/-- The "start" payload `{"desiredCapacity": 3, "minCapacity": 2}`. -/
def evStart : Event :=
  { desiredCapacity := .int 3, minCapacity := .int 2, maxCapacity := .none }

/-- Payload `{"desiredCapacity": {}}`: an empty object in the desired field. -/
def evBadDesired : Event :=
  { desiredCapacity := .dict [], minCapacity := .none, maxCapacity := .none }

/-- Payload `{"minCapacity": {}}`: an empty object in the min field. -/
def evBadMin : Event :=
  { desiredCapacity := .none, minCapacity := .dict [], maxCapacity := .none }

/-- Payload `{"desiredCapacity": -3}`. -/
def evNegDesired : Event :=
  { desiredCapacity := .int (-3), minCapacity := .none, maxCapacity := .none }

/-! ### Claims -/

/-- C1: the claim that every accepted request yields an envelope with
`minimum ≤ desired ≤ maximum` is false: the accepted request
`{"desiredCapacity": 1, "minCapacity": 5}` (ceiling 4) normalizes to
`{minimum: 5, desired: 1, maximum: 4}`, and `5 ≤ 1` fails — the handler
never clamps the resolved minimum. -/
theorem C1_counterexample :
    on_event cfg0 evMinAboveDesired =
      .ok ({ clusterName := "demo-cluster", nodegroupName := "demo-ng",
             scalingConfig := { minSize := 5, maxSize := 4, desiredSize := 1 } },
           { cluster := "demo-cluster", nodegroup := "demo-ng",
             desired := 1, min := 5, max := 4 }) ∧
    ¬ ((5 : ℤ) ≤ 1) := by
  constructor
  · rfl
  · decide

/-- C1 (amended): for every raw request that normalization accepts, the
resulting envelope satisfies `desired ≤ maximum`; `minimum ≤ desired`
additionally holds whenever `minCapacity` is absent (the floor then
defaults to the resolved desired), but an explicit `minCapacity` above
the desired value is passed through unclamped. -/
theorem C1_amended (cfg : Config) (ev : Event) (call : UpdateCall) (r : EventResult)
    (h : on_event cfg ev = .ok (call, r)) :
    r.desired ≤ r.max ∧ (ev.minCapacity = PyVal.none → r.min ≤ r.desired) := by
  obtain ⟨d, m, mx, hd, hm, hmx, hcall, hr⟩ := (on_event_ok_iff cfg ev call r).mp h
  subst hr
  refine ⟨le_max_left d mx, fun hmin => ?_⟩
  rw [hmin] at hm
  rw [coerce_capacity] at hm
  injection hm with hdm
  simp [hdm]

/-- C1 witness: the amended claim at the concrete accepted request
`{"desiredCapacity": 3}` with ceiling 4. -/
theorem C1_witness :
    (3 : ℤ) ≤ ({ cluster := "demo-cluster", nodegroup := "demo-ng",
                 desired := 3, min := 3, max := 4 } : EventResult).max ∧
    (evDesiredOnly.minCapacity = PyVal.none →
      ({ cluster := "demo-cluster", nodegroup := "demo-ng",
         desired := 3, min := 3, max := 4 } : EventResult).min ≤ 3) :=
  C1_amended cfg0 evDesiredOnly
    { clusterName := "demo-cluster", nodegroupName := "demo-ng",
      scalingConfig := { minSize := 3, maxSize := 4, desiredSize := 3 } }
    { cluster := "demo-cluster", nodegroup := "demo-ng",
      desired := 3, min := 3, max := 4 }
    (by rfl)

/-- C2: for every accepted raw request, the final maximum equals
`max(resolved desired, resolved maxCapacity)`; in particular, when
`maxCapacity` is absent the resolved override is the ceiling, so the
maximum is the ceiling unless the desired value exceeds it, in which
case it is the desired value. -/
theorem C2_max_widens (cfg : Config) (ev : Event) (call : UpdateCall) (r : EventResult)
    (h : on_event cfg ev = .ok (call, r)) :
    (∃ mx, coerce_capacity ev.maxCapacity cfg.maxCapacity = .ok mx ∧
      r.max = max r.desired mx) ∧
    (ev.maxCapacity = PyVal.none →
      r.max = if cfg.maxCapacity < r.desired then r.desired else cfg.maxCapacity) := by
  obtain ⟨d, m, mx, hd, hm, hmx, hcall, hr⟩ := (on_event_ok_iff cfg ev call r).mp h
  subst hr
  refine ⟨⟨mx, hmx, rfl⟩, fun habs => ?_⟩
  rw [habs, coerce_capacity] at hmx
  injection hmx with hceil
  subst hceil
  simp only
  rw [max_def]
  split_ifs <;> omega

/-- C2 witness: the concrete request `{"desiredCapacity": 6}` against
ceiling 4 widens the maximum to 6. -/
theorem C2_witness :
    (∃ mx, coerce_capacity evBigDesired.maxCapacity cfg0.maxCapacity = .ok mx ∧
      ({ cluster := "demo-cluster", nodegroup := "demo-ng",
         desired := 6, min := 6, max := 6 } : EventResult).max =
        max ({ cluster := "demo-cluster", nodegroup := "demo-ng",
               desired := 6, min := 6, max := 6 } : EventResult).desired mx) ∧
    (evBigDesired.maxCapacity = PyVal.none →
      ({ cluster := "demo-cluster", nodegroup := "demo-ng",
         desired := 6, min := 6, max := 6 } : EventResult).max =
        if cfg0.maxCapacity < 6 then 6 else cfg0.maxCapacity) :=
  C2_max_widens cfg0 evBigDesired
    { clusterName := "demo-cluster", nodegroupName := "demo-ng",
      scalingConfig := { minSize := 6, maxSize := 6, desiredSize := 6 } }
    { cluster := "demo-cluster", nodegroup := "demo-ng",
      desired := 6, min := 6, max := 6 }
    (by rfl)

/-- C3: for every accepted raw request, an absent `minCapacity` resolves
to the resolved desired value, an explicit `minCapacity` of `0` resolves
to `0`, and an absent `desiredCapacity` resolves to `0`. -/
theorem C3_defaults (cfg : Config) (ev : Event) (call : UpdateCall) (r : EventResult)
    (h : on_event cfg ev = .ok (call, r)) :
    (ev.minCapacity = PyVal.none → r.min = r.desired) ∧
    (ev.minCapacity = PyVal.int 0 → r.min = 0) ∧
    (ev.desiredCapacity = PyVal.none → r.desired = 0) := by
  obtain ⟨d, m, mx, hd, hm, hmx, hcall, hr⟩ := (on_event_ok_iff cfg ev call r).mp h
  subst hr
  refine ⟨fun habs => ?_, fun hzero => ?_, fun hdabs => ?_⟩
  · rw [habs, coerce_capacity] at hm
    injection hm with hdm
    simp [hdm]
  · rw [hzero, coerce_capacity] at hm
    injection hm with hdm
    simp [hdm]
  · rw [hdabs, coerce_capacity] at hd
    injection hd with hdd
    simp [hdd]

/-- C3 witness: the concrete request `{"desiredCapacity": 3}` (minimum
defaults to the resolved desired 3). -/
theorem C3_witness :
    (evDesiredOnly.minCapacity = PyVal.none →
      ({ cluster := "demo-cluster", nodegroup := "demo-ng",
         desired := 3, min := 3, max := 4 } : EventResult).min = 3) ∧
    (evDesiredOnly.minCapacity = PyVal.int 0 →
      ({ cluster := "demo-cluster", nodegroup := "demo-ng",
         desired := 3, min := 3, max := 4 } : EventResult).min = 0) ∧
    (evDesiredOnly.desiredCapacity = PyVal.none →
      ({ cluster := "demo-cluster", nodegroup := "demo-ng",
         desired := 3, min := 3, max := 4 } : EventResult).desired = 0) :=
  C3_defaults cfg0 evDesiredOnly
    { clusterName := "demo-cluster", nodegroupName := "demo-ng",
      scalingConfig := { minSize := 3, maxSize := 4, desiredSize := 3 } }
    { cluster := "demo-cluster", nodegroup := "demo-ng",
      desired := 3, min := 3, max := 4 }
    (by rfl)

/-- C4: the claim that the coercion error carries the offending field
name is false: the two distinct requests `{"desiredCapacity": {}}` and
`{"minCapacity": {}}` fail with the *identical* error value, so the
error cannot identify which field was offending — the handler's
`ValueError` message interpolates only the raw value. -/
theorem C4_counterexample :
    on_event cfg0 evBadDesired = .error (.invalidCapacityValue (.dict [])) ∧
    on_event cfg0 evBadMin = .error (.invalidCapacityValue (.dict [])) ∧
    evBadDesired ≠ evBadMin := by
  refine ⟨rfl, rfl, fun h => ?_⟩
  exact PyVal.noConfusion (congrArg Event.desiredCapacity h)

/-- C4 (amended): for each field independently, an absent value uses the
field's default; an integer is taken as-is and a float is truncated to
an integer; a non-empty string is parsed as an integer by `int()`; an
object, a list, an empty (or all-whitespace) string, and a non-numeric
string all fail with `InvalidCapacityValue` — the error carrying the
offending raw value (but not the field name). -/
theorem C4_amended (d : ℤ) :
    coerce_capacity PyVal.none d = .ok d ∧
    (∀ n : ℤ, coerce_capacity (.int n) d = .ok n) ∧
    (∀ q : ℚ, coerce_capacity (.float q) d = .ok (pyTrunc q)) ∧
    (∀ s n, pyIntOfString s = some n → coerce_capacity (.str s) d = .ok n) ∧
    (∀ entries, coerce_capacity (.dict entries) d =
      .error (.invalidCapacityValue (.dict entries))) ∧
    (∀ xs, coerce_capacity (.list xs) d = .error (.invalidCapacityValue (.list xs))) ∧
    coerce_capacity (.str "") d = .error (.invalidCapacityValue (.str "")) ∧
    (∀ s, pyIntOfString s = Option.none →
      coerce_capacity (.str s) d = .error (.invalidCapacityValue (.str s))) := by
  refine ⟨rfl, fun n => rfl, fun q => rfl, fun s n hp => coerce_capacity_of_parse s n d hp,
    fun entries => rfl, fun xs => rfl, rfl, fun s hp => ?_⟩
  rw [coerce_capacity]
  by_cases hne : pyStrip s.data = []
  · rw [if_neg (by simpa using hne)]
  · rw [if_pos hne, hp]

/-- C4 witness: the amended claim applied with default 0, evaluated at
the parsable string "7" and the unparsable string "abc". -/
theorem C4_witness :
    coerce_capacity (.str "7") 0 = .ok 7 ∧
    coerce_capacity (.str "abc") 0 = .error (.invalidCapacityValue (.str "abc")) :=
  ⟨(C4_amended 0).2.2.2.1 "7" 7 (by decide),
   (C4_amended 0).2.2.2.2.2.2.2 "abc" (by decide)⟩

/-- C5: an invocation whose payload fails coercion returns the
`InvalidCapacityValue` error and issues no external update call; every
invocation issues at most one update call; and a call is issued only
when all three field coercions (in program order, with the min default
being the resolved desired) have succeeded. -/
theorem C5_sequencing (cfg : Config) (ev : Event) :
    (∀ e, on_event cfg ev = .error e → on_event_calls cfg ev = []) ∧
    (on_event_calls cfg ev).length ≤ 1 ∧
    (on_event_calls cfg ev ≠ [] →
      ∃ d m mx, coerce_capacity ev.desiredCapacity 0 = .ok d ∧
        coerce_capacity ev.minCapacity d = .ok m ∧
        coerce_capacity ev.maxCapacity cfg.maxCapacity = .ok mx) := by
  cases h : on_event cfg ev with
  | error e' =>
    refine ⟨fun e _ => ?_, ?_, fun hne => absurd ?_ hne⟩
    · rw [on_event_calls, h]
    · rw [on_event_calls, h]
      simp
    · rw [on_event_calls, h]
  | ok p =>
    obtain ⟨call, r⟩ := p
    obtain ⟨d, m, mx, hd, hm, hmx, -, -⟩ := (on_event_ok_iff cfg ev call r).mp h
    refine ⟨fun e he => ?_, ?_, fun _ => ⟨d, m, mx, hd, hm, hmx⟩⟩
    · cases he
    · rw [on_event_calls, h]
      simp

/-- C5 witness: the invalid request `{"desiredCapacity": {}}` fails and
issues no external call. -/
theorem C5_witness : on_event_calls cfg0 evBadDesired = [] :=
  (C5_sequencing cfg0 evBadDesired).1 (.invalidCapacityValue (.dict [])) rfl

/-- C6: the claim that every accepted request yields non-negative
envelope fields is false: the accepted request
`{"desiredCapacity": -3}` normalizes to desired `-3` and minimum `-3` —
coercion never checks the sign. -/
theorem C6_counterexample :
    on_event cfg0 evNegDesired =
      .ok ({ clusterName := "demo-cluster", nodegroupName := "demo-ng",
             scalingConfig := { minSize := -3, maxSize := 4, desiredSize := -3 } },
           { cluster := "demo-cluster", nodegroup := "demo-ng",
             desired := -3, min := -3, max := 4 }) ∧
    ((-3 : ℤ) < 0) := by
  constructor
  · rfl
  · decide

/-- C6 (amended): the envelope fields are integers, and they are all
non-negative provided each of the three fields coerces to a non-negative
value (an absent field counting as its default: 0, the resolved desired,
or the ceiling respectively). -/
theorem C6_amended (cfg : Config) (ev : Event) (call : UpdateCall) (r : EventResult)
    (d m mx : ℤ) (h : on_event cfg ev = .ok (call, r))
    (hd : coerce_capacity ev.desiredCapacity 0 = .ok d) (hd0 : 0 ≤ d)
    (hm : coerce_capacity ev.minCapacity d = .ok m) (hm0 : 0 ≤ m)
    (hmx : coerce_capacity ev.maxCapacity cfg.maxCapacity = .ok mx) (hmx0 : 0 ≤ mx) :
    0 ≤ r.desired ∧ 0 ≤ r.min ∧ 0 ≤ r.max := by
  obtain ⟨d', m', mx', hd', hm', hmx', -, hr⟩ := (on_event_ok_iff cfg ev call r).mp h
  subst hr
  have hdd : d = d' := by
    have := hd.symm.trans hd'
    injection this
  subst hdd
  have hmm : m = m' := by
    have := hm.symm.trans hm'
    injection this
  subst hmm
  have hmxx : mx = mx' := by
    have := hmx.symm.trans hmx'
    injection this
  subst hmxx
  exact ⟨hd0, hm0, le_max_of_le_right hmx0⟩

/-- C6 witness: the amended claim at the "start" request
`{"desiredCapacity": 3, "minCapacity": 2}` with ceiling 4. -/
theorem C6_witness :
    (0 : ℤ) ≤ ({ cluster := "demo-cluster", nodegroup := "demo-ng",
                 desired := 3, min := 2, max := 4 } : EventResult).desired ∧
    (0 : ℤ) ≤ ({ cluster := "demo-cluster", nodegroup := "demo-ng",
                 desired := 3, min := 2, max := 4 } : EventResult).min ∧
    (0 : ℤ) ≤ ({ cluster := "demo-cluster", nodegroup := "demo-ng",
                 desired := 3, min := 2, max := 4 } : EventResult).max :=
  C6_amended cfg0 evStart
    { clusterName := "demo-cluster", nodegroupName := "demo-ng",
      scalingConfig := { minSize := 2, maxSize := 4, desiredSize := 3 } }
    { cluster := "demo-cluster", nodegroup := "demo-ng",
      desired := 3, min := 2, max := 4 }
    3 2 4 (by rfl) (by rfl) (by decide) (by rfl) (by decide) (by rfl) (by decide)

/-- C7: every successful invocation returns
`{cluster, nodegroup, desired, min, max}` where the identity fields are
the configured pool identity and the three numbers are exactly the
values passed to the external update call's `scalingConfig`. -/
theorem C7_result_echoes_call (cfg : Config) (ev : Event) (call : UpdateCall)
    (r : EventResult) (h : on_event cfg ev = .ok (call, r)) :
    r.cluster = cfg.clusterName ∧ r.nodegroup = cfg.nodegroupName ∧
    call.clusterName = cfg.clusterName ∧ call.nodegroupName = cfg.nodegroupName ∧
    r.desired = call.scalingConfig.desiredSize ∧
    r.min = call.scalingConfig.minSize ∧
    r.max = call.scalingConfig.maxSize := by
  obtain ⟨d, m, mx, -, -, -, hcall, hr⟩ := (on_event_ok_iff cfg ev call r).mp h
  subst hcall
  subst hr
  exact ⟨rfl, rfl, rfl, rfl, rfl, rfl, rfl⟩

/-- C7 witness: the echo property at the concrete "start" request. -/
theorem C7_witness :
    ({ cluster := "demo-cluster", nodegroup := "demo-ng",
       desired := 3, min := 2, max := 4 } : EventResult).cluster = cfg0.clusterName ∧
    ({ cluster := "demo-cluster", nodegroup := "demo-ng",
       desired := 3, min := 2, max := 4 } : EventResult).nodegroup = cfg0.nodegroupName ∧
    ({ clusterName := "demo-cluster", nodegroupName := "demo-ng",
       scalingConfig := { minSize := 2, maxSize := 4, desiredSize := 3 } } :
        UpdateCall).clusterName = cfg0.clusterName ∧
    ({ clusterName := "demo-cluster", nodegroupName := "demo-ng",
       scalingConfig := { minSize := 2, maxSize := 4, desiredSize := 3 } } :
        UpdateCall).nodegroupName = cfg0.nodegroupName ∧
    (3 : ℤ) = (3 : ℤ) ∧ (2 : ℤ) = (2 : ℤ) ∧ (4 : ℤ) = (4 : ℤ) :=
  C7_result_echoes_call cfg0 evStart
    { clusterName := "demo-cluster", nodegroupName := "demo-ng",
      scalingConfig := { minSize := 2, maxSize := 4, desiredSize := 3 } }
    { cluster := "demo-cluster", nodegroup := "demo-ng",
      desired := 3, min := 2, max := 4 }
    (by rfl)

theorem coerce_capacity_int (n d : ℤ) : coerce_capacity (.int n) d = .ok n := rfl

/-- C8: for every integer `n`, every configuration and every surrounding
request, supplying any one of the three fields as the decimal string of
`n` normalizes to exactly the same outcome (envelope, call and result)
as supplying the integer `n` itself. -/
theorem C8_numeric_string_equiv (cfg : Config) (n : ℤ) (ev : Event) :
    on_event cfg { ev with desiredCapacity := .str (decimalString n) } =
      on_event cfg { ev with desiredCapacity := .int n } ∧
    on_event cfg { ev with minCapacity := .str (decimalString n) } =
      on_event cfg { ev with minCapacity := .int n } ∧
    on_event cfg { ev with maxCapacity := .str (decimalString n) } =
      on_event cfg { ev with maxCapacity := .int n } := by
  refine ⟨?_, ?_, ?_⟩ <;>
    rw [on_event, on_event] <;>
    simp only [coerce_capacity_decimalString, coerce_capacity_int]

/-- C9: booleans are not rejected: `True` is an `int` instance in
Python, so both booleans pass the `isinstance(value, (int, float))`
check and coerce via `int(...)` to 1 and 0 respectively, for whichever
field (i.e. whatever default) they appear in. -/
theorem C9_bool_accepted (d : ℤ) :
    coerce_capacity (.bool true) d = .ok 1 ∧
    coerce_capacity (.bool false) d = .ok 0 :=
  ⟨rfl, rfl⟩

/-- C10: coercion is not representation-uniform: any string containing a
decimal point or an exponent marker — in particular every string
denoting a non-integer numeric value, such as "3.5" — fails with
`InvalidCapacityValue`, while every float value is accepted and
truncated toward zero; concretely `"3.5"` is rejected but `3.5` coerces
to `3`. -/
theorem C10_string_float_asymmetry (d : ℤ) (s : String) (c : Char)
    (hmem : c ∈ s.data) (hc : c = '.' ∨ c = 'e' ∨ c = 'E') :
    coerce_capacity (.str s) d = .error (.invalidCapacityValue (.str s)) ∧
    (∀ q : ℚ, coerce_capacity (.float q) d = .ok (pyTrunc q)) ∧
    coerce_capacity (.str "3.5") 0 = .error (.invalidCapacityValue (.str "3.5")) ∧
    coerce_capacity (.float (7 / 2 : ℚ)) 0 = .ok 3 := by
  refine ⟨?_, fun q => rfl, ?_, ?_⟩
  · rcases hc with h | h | h <;> subst h <;>
      exact coerce_capacity_str_error_of_bad s d _ hmem (by decide) (by decide)
        (by decide) (by decide) (by decide)
  · exact coerce_capacity_str_error_of_bad "3.5" 0 '.' (by decide) (by decide)
      (by decide) (by decide) (by decide) (by decide)
  · have : pyTrunc (7 / 2 : ℚ) = 3 := by
      rw [pyTrunc, if_pos (by norm_num)]
      rw [show (3 : ℤ) = ⌊(3.5 : ℚ)⌋ from by norm_num [Int.floor_eq_iff]]
      norm_num
    rw [coerce_capacity, this]

/-- C10 witness: the asymmetry at the concrete string "2.5". -/
theorem C10_witness :
    coerce_capacity (.str "2.5") 0 = .error (.invalidCapacityValue (.str "2.5")) ∧
    (∀ q : ℚ, coerce_capacity (.float q) 0 = .ok (pyTrunc q)) ∧
    coerce_capacity (.str "3.5") 0 = .error (.invalidCapacityValue (.str "3.5")) ∧
    coerce_capacity (.float (7 / 2 : ℚ)) 0 = .ok 3 :=
  C10_string_float_asymmetry 0 "2.5" '.' (by decide) (Or.inl rfl)
